import Mathlib

/-!
Verification of the harmonic-playlist core of the playlist-creator repository.

The development shallowly embeds the reconciliation and grouping code:

* `src/unnamed/part_000` (the DJ harmonic playlist script): the Camelot wheel
  tables, `getCamelotKey`, `getHarmonicCompatibility`,
  `processAlternativeAnalysis` and `createDJPlaylists`.
* `src/alternative-audio-sources.js`: `combineAudioFeatures` (the feature
  reconciler) and `batchAnalyzeAlternativeSources` (the batch orchestrator).

JavaScript numbers are modelled as `ℚ` (no float behaviour is ever exercised
by the embedded code paths: all arithmetic is on small exact values),
nullable fields as `Option`, and JavaScript truthiness of a nullable number
(`null`/`undefined`/`0` are falsy) by `truthyQ`/`truthyNat`.  The network
adapters themselves are external collaborators; their settled outcomes
(success data or failure) are inputs of the embedded functions, exactly as
`combineAudioFeatures` receives them after `Promise.all`.  The two sites in
the source that call `Math.random` (unrecognized key / mode fallbacks) are
modelled by explicit oracle arguments `rndKey`, `rndMode`.
-/

/-- JavaScript truthiness of a nullable number: `null` and `0` are falsy. -/
def truthyQ : Option ℚ → Bool
  | none => false
  | some x => decide (x ≠ 0)

/-- JavaScript truthiness of a nullable small integer: `null` and `0` are falsy. -/
def truthyNat : Option Nat → Bool
  | none => false
  | some n => decide (n ≠ 0)

/-- `Math.round` on an exact number: floor of `x + 1/2` (ties go up, as in JS). -/
def jsRound (x : ℚ) : Int := ⌊x + 1 / 2⌋

/-- Decimal value of a list of digit characters. -/
def digitsToNat (cs : List Char) : Nat :=
  cs.foldl (fun acc c => acc * 10 + (c.toNat - 48)) 0

/-- JavaScript `parseInt` restricted to the shapes arising here: an optional
leading minus sign followed by leading decimal digits; `none` models `NaN`. -/
def jsParseInt (s : String) : Option Int :=
  match s.data with
  | '-' :: rest =>
    let ds := rest.takeWhile Char.isDigit
    if ds.isEmpty then none else some (-(digitsToNat ds : Int))
  | cs =>
    let ds := cs.takeWhile Char.isDigit
    if ds.isEmpty then none else some ((digitsToNat ds : Int))

/-- JavaScript `s.slice(-1)`: the last character of a string, as a string. -/
def sliceLast (s : String) : String :=
  String.mk (s.data.drop (s.data.length - 1))

/-! ## Key-Circle model (`src/unnamed/part_000`, lines 6–41 and 120–162) -/

/-- `CAMELOT_WHEEL`: major keys (letter `B`), indexed by pitch class 0–11. -/
def CAMELOT_WHEEL : List (Nat × String) :=
  [(0, "1B"), (1, "8B"), (2, "3B"), (3, "10B"), (4, "5B"), (5, "12B"),
   (6, "7B"), (7, "2B"), (8, "9B"), (9, "4B"), (10, "11B"), (11, "6B")]

/-- `CAMELOT_WHEEL_MINOR`: minor keys (letter `A`), indexed by pitch class 0–11. -/
def CAMELOT_WHEEL_MINOR : List (Nat × String) :=
  [(0, "8A"), (1, "3A"), (2, "10A"), (3, "5A"), (4, "12A"), (5, "7A"),
   (6, "2A"), (7, "9A"), (8, "4A"), (9, "11A"), (10, "6A"), (11, "1A")]

/-- `KEY_NAMES`: display names of the 12 pitch classes. -/
def KEY_NAMES : List (Nat × String) :=
  [(0, "C"), (1, "C#/Db"), (2, "D"), (3, "D#/Eb"), (4, "E"), (5, "F"),
   (6, "F#/Gb"), (7, "G"), (8, "G#/Ab"), (9, "A"), (10, "A#/Bb"), (11, "B")]

/-- `getCamelotKey(key, mode)`: table lookup, `'Unknown'` when the pitch class is
not in the table; the major table is used exactly when `mode === 1`. -/
def getCamelotKey (key : Nat) (mode : Option Nat) : String :=
  if mode = some 1 then ((CAMELOT_WHEEL.lookup key).getD ("Unknown"))
  else ((CAMELOT_WHEEL_MINOR.lookup key).getD ("Unknown"))

/-- `getHarmonicCompatibility(camelotKey)`: the 8-entry compatibility list.
Mirrors the source: `parseInt` of the key, `slice(-1)` for the letter, and the
source's conditional wraparound arithmetic.  The `none` branch mirrors the JS
behaviour when `parseInt` yields `NaN` (every interpolated number prints as
`"NaN"`); it is unreachable for the 24 valid wheel positions. -/
def getHarmonicCompatibility (camelotKey : String) : List String :=
  if camelotKey = "" ∨ camelotKey = "Unknown" then []
  else
    let letter := sliceLast camelotKey
    let oppositeLetter := if letter = "A" then "B" else "A"
    match jsParseInt camelotKey with
    | none =>
      [camelotKey,
       "NaN" ++ letter, "NaN" ++ letter,
       "NaN" ++ oppositeLetter,
       "NaN" ++ letter, "NaN" ++ letter,
       "NaN" ++ oppositeLetter, "NaN" ++ oppositeLetter]
    | some number =>
      let nextNum := if number = 12 then 1 else number + 1
      let prevNum := if number = 1 then 12 else number - 1
      let fourthUp := if number + 7 > 12 then number + 7 - 12 else number + 7
      let fifthUp := if number + 5 > 12 then number + 5 - 12 else number + 5
      let energyBoost := if nextNum = 13 then 1 else nextNum
      let energyDrop := if prevNum = 0 then 12 else prevNum
      [camelotKey,
       toString nextNum ++ letter,
       toString prevNum ++ letter,
       toString number ++ oppositeLetter,
       toString fourthUp ++ letter,
       toString fifthUp ++ letter,
       toString energyBoost ++ oppositeLetter,
       toString energyDrop ++ oppositeLetter]

/-! ## Specification-side vocabulary for the Key-Circle claims -/

/-- The 24 valid Camelot wheel positions (slots 1–12, letters `A` and `B`). -/
def validCamelotKeys : List String :=
  ["1A", "2A", "3A", "4A", "5A", "6A", "7A", "8A", "9A", "10A", "11A", "12A",
   "1B", "2B", "3B", "4B", "5B", "6B", "7B", "8B", "9B", "10B", "11B", "12B"]

/-- Wraps an integer slot into 1..12 (the spec's modular arithmetic on slots). -/
def wrap12 (m : Int) : Int := ((m - 1) % 12) + 1

/-- Whether a returned compatibility entry has a slot in 1..12. -/
def slotInRange (e : String) : Bool :=
  match jsParseInt e with
  | some m => decide (1 ≤ m ∧ m ≤ 12)
  | none => false

/-- The compatibility list the code actually produces, described slot-wise with
`wrap12`: itself, same-polarity neighbours at `n±1`, the opposite-polarity twin
at `n`, same-polarity entries at `n+7` and `n+5`, and opposite-polarity
entries at `n+1` and `n-1`. -/
def expectedCompat (k : String) : List String :=
  match jsParseInt k with
  | none => []
  | some n =>
    let letter := sliceLast k
    let opp := if letter = "A" then "B" else "A"
    [k,
     toString (wrap12 (n + 1)) ++ letter,
     toString (wrap12 (n - 1)) ++ letter,
     toString n ++ opp,
     toString (wrap12 (n + 7)) ++ letter,
     toString (wrap12 (n + 5)) ++ letter,
     toString (wrap12 (n + 1)) ++ opp,
     toString (wrap12 (n - 1)) ++ opp]

/-- The membership classes asserted by the claim about compatibility sets:
the position itself, same-polarity neighbours at `n±1`, the opposite-polarity
twin at `n`, or an entry at `n±5` / `n±7` slots (any polarity). -/
def claimC2Classes (n : Int) (p : String) (e : String) : Bool :=
  match jsParseInt e with
  | none => false
  | some m =>
    let q := sliceLast e
    (decide (m = n) && decide (q = p)) ||
    ((decide (m = wrap12 (n + 1)) || decide (m = wrap12 (n - 1))) && decide (q = p)) ||
    (decide (m = n) && decide (q ≠ p)) ||
    (decide (m = wrap12 (n + 5)) || decide (m = wrap12 (n - 5)) ||
     decide (m = wrap12 (n + 7)) || decide (m = wrap12 (n - 7)))

/-- All 24 (pitch class, mode) pairs, modes encoded as in the source (1 = major). -/
def allKeyModePairs : List (Nat × Nat) :=
  (List.range 12).flatMap (fun k => [(k, 0), (k, 1)])

example : getCamelotKey 0 (some 1) = "1B" := by decide
example : getCamelotKey 0 (some 0) = "8A" := by decide
example : getCamelotKey 12 (some 1) = "Unknown" := by decide
example : getHarmonicCompatibility ("8A") =
    ["8A", "9A", "7A", "8B", "3A", "1A", "9B", "7B"] := by decide

/-! ## Claims about the Key-Circle model -/

/-- C4: the pitch-class-to-Camelot mapping is a bijection from the 24
(pitch class 0–11, mode) pairs onto the 24 wheel positions: every pair maps
into the fixed 24-element codomain (never `"Unknown"`), and no two distinct
pairs collide. -/
theorem camelot_mapping_bijective :
    (∀ p ∈ allKeyModePairs,
        getCamelotKey p.1 (some p.2) ∈ validCamelotKeys ∧
        getCamelotKey p.1 (some p.2) ≠ "Unknown") ∧
    (allKeyModePairs.map (fun p => getCamelotKey p.1 (some p.2))).Nodup := by
  decide

theorem camelot_mapping_bijective_witness :
    getCamelotKey 0 (some 1) ∈ validCamelotKeys ∧ getCamelotKey 0 (some 1) ≠ "Unknown" :=
  camelot_mapping_bijective.1 (0, 1) (by decide)

/-- C5: for every valid Camelot key, `getHarmonicCompatibility` returns exactly
8 entries, always including the input itself, and every returned entry's slot
lies in 1..12 (the wraparound arithmetic never leaves the wheel). -/
theorem compat_eight_entries (k : String) (h : k ∈ validCamelotKeys) :
    (getHarmonicCompatibility k).length = 8 ∧
    k ∈ getHarmonicCompatibility k ∧
    ∀ e ∈ getHarmonicCompatibility k, slotInRange e = true := by
  have hall : ∀ x ∈ validCamelotKeys,
      (getHarmonicCompatibility x).length = 8 ∧
      x ∈ getHarmonicCompatibility x ∧
      ∀ e ∈ getHarmonicCompatibility x, slotInRange e = true := by decide
  exact hall k h

theorem compat_eight_entries_witness :
    (getHarmonicCompatibility ("8A")).length = 8 ∧
    "8A" ∈ getHarmonicCompatibility ("8A") ∧
    ∀ e ∈ getHarmonicCompatibility ("8A"), slotInRange e = true :=
  compat_eight_entries ("8A") (by decide)

/-- C2 (counterexample): the compatibility set of `"8A"` contains `"9B"`,
which falls in none of the claimed membership classes (itself, `n±1` same
polarity, same-slot twin, or `n±5` / `n±7` slots): the code's two
opposite-polarity extras sit at `n±1`, not at `±5`/`±7` slots. -/
theorem compat_claim_counterexample :
    "9B" ∈ getHarmonicCompatibility ("8A") ∧
    claimC2Classes 8 ("A") ("9B") = false := by decide

/-- C2 (as amended): for every valid wheel position with slot `n`, the
compatibility list consists of the position itself, its two same-polarity
neighbours at `n±1`, its opposite-polarity twin at slot `n`, two further
same-polarity entries at `n+7` and `n+5` slots (equivalently `n-5` and `n-7`),
and two opposite-polarity entries at `n+1` and `n-1` slots. -/
theorem compat_structure_corrected (k : String) (h : k ∈ validCamelotKeys) :
    getHarmonicCompatibility k = expectedCompat k := by
  have hall : ∀ x ∈ validCamelotKeys, getHarmonicCompatibility x = expectedCompat x := by
    decide
  exact hall k h

theorem compat_structure_corrected_witness :
    getHarmonicCompatibility ("8A") = expectedCompat ("8A") :=
  compat_structure_corrected ("8A") (by decide)

/-! ## Source adapters' settled results (`src/alternative-audio-sources.js`)

Each adapter call settles to either a failure (`{error}` object, modelled as
`none`) or a data object.  Only the fields read by `combineAudioFeatures`
are carried. -/

/-- A successful Last.fm result: `estimatedEnergy` as read by the reconciler. -/
structure LastFmData where
  estimatedEnergy : Option ℚ
deriving DecidableEq

/-- A successful AcousticBrainz result, fields as read by the reconciler. -/
structure ABData where
  bpm : Option ℚ
  key : Option String
  mode : Option String
  energy : Option ℚ
  danceability : Option ℚ
deriving DecidableEq

/-- A successful Beatport (estimator) result, fields as read by the reconciler. -/
structure BeatportData where
  bpm : Option ℚ
  key : Option Nat
deriving DecidableEq

/-- The `combined` record produced by `combineAudioFeatures`. -/
structure Combined where
  bpm : Option ℚ
  key : Option Nat
  mode : Option Nat
  energy : Option ℚ
  danceability : Option ℚ
  confidence : ℚ
deriving DecidableEq

/-- The AcousticBrainz key-name table of `mapAcousticBrainzKey`. -/
def acousticBrainzKeyMap : List (String × Nat) :=
  [("C", 0), ("C#", 1), ("Db", 1), ("D", 2), ("D#", 3), ("Eb", 3),
   ("E", 4), ("F", 5), ("F#", 6), ("Gb", 6), ("G", 7), ("G#", 8),
   ("Ab", 8), ("A", 9), ("A#", 10), ("Bb", 10), ("B", 11)]

/-- `mapAcousticBrainzKey`: table lookup, falling back to
`Math.floor(Math.random() * 12)` — the random draw is the oracle `rnd % 12`. -/
def mapAcousticBrainzKey (rnd : Nat) (abKey : String) : Nat :=
  match acousticBrainzKeyMap.lookup abKey with
  | some v => v
  | none => rnd % 12

/-- `mapAcousticBrainzMode`: `'major' → 1`, `'minor' → 0`, else
`Math.round(Math.random())` — the random draw is the oracle `rnd % 2`. -/
def mapAcousticBrainzMode (rnd : Nat) (abMode : Option String) : Nat :=
  if abMode = some "major" then 1
  else if abMode = some "minor" then 0
  else rnd % 2

/-- `combineAudioFeatures(lastfmData, acousticbrainzData, beatportData)`:
the deterministic priority merge.  The three branches update the mutable
`combined` / `sources` / `totalConfidence` of the source in order
(AcousticBrainz, then Beatport guarded by `!combined.bpm`, then Last.fm); the
state threading matches the JS statement order, including every truthiness
test (`0` counts as absent). -/
def combineAudioFeatures (rndKey rndMode : Nat) (lastfmData : Option LastFmData)
    (acousticbrainzData : Option ABData) (beatportData : Option BeatportData) : Combined :=
  let c0 : Combined :=
    { bpm := none, key := none, mode := none, energy := none, danceability := none,
      confidence := 0 }
  -- Prioritize AcousticBrainz for accuracy
  let s1 : Combined × Nat × ℚ :=
    match acousticbrainzData with
    | none => (c0, 0, 0)
    | some d =>
      let bpmTc : Option ℚ × ℚ :=
        if truthyQ d.bpm then (some ((jsRound (d.bpm.getD 0) : Int) : ℚ), (0 : ℚ) + 8 / 10)
        else (none, 0)
      let keyMode : Option Nat × Option Nat :=
        match d.key with
        | some s => (some (mapAcousticBrainzKey rndKey s), some (mapAcousticBrainzMode rndMode d.mode))
        | none => (none, none)
      let energy1 := if truthyQ d.energy then some (min 1 (d.energy.getD 0)) else none
      let dance1 := if truthyQ d.danceability then d.danceability else none
      ({ c0 with bpm := bpmTc.1, key := keyMode.1, mode := keyMode.2,
                 energy := energy1, danceability := dance1 }, 1, bpmTc.2)
  -- Use Beatport as backup for BPM/key (the whole branch is guarded by `!combined.bpm`)
  let s2 : Combined × Nat × ℚ :=
    match beatportData with
    | none => s1
    | some e =>
      if truthyQ s1.1.bpm then s1
      else
        let bpmTc : Option ℚ × ℚ :=
          if truthyQ e.bpm then (e.bpm, s1.2.2 + 3 / 10) else (s1.1.bpm, s1.2.2)
        let key2 := if truthyNat e.key && !truthyNat s1.1.key then e.key else s1.1.key
        ({ s1.1 with bpm := bpmTc.1, key := key2 }, s1.2.1 + 1, bpmTc.2)
  -- Use Last.fm for energy estimation
  let s3 : Combined × Nat × ℚ :=
    match lastfmData with
    | none => s2
    | some l =>
      let enTc : Option ℚ × ℚ :=
        if truthyQ l.estimatedEnergy && !truthyQ s2.1.energy then (l.estimatedEnergy, s2.2.2 + 2 / 10)
        else (s2.1.energy, s2.2.2)
      ({ s2.1 with energy := enTc.1 }, s2.2.1 + 1, enTc.2)
  -- Calculate overall confidence
  { s3.1 with confidence := if s3.2.1 > 0 then s3.2.2 / (s3.2.1 : ℚ) else 0 }

/-! ## Specification-side vocabulary for the confidence claims -/

/-- The tempo the AcousticBrainz step stores, `none` when it stores nothing. -/
def abBpmValue (ab : Option ABData) : Option ℚ :=
  match ab with
  | some d => if truthyQ d.bpm then some ((jsRound (d.bpm.getD 0) : Int) : ℚ) else none
  | none => none

/-- Whether the Beatport branch runs at all: a non-failing Beatport result is
consulted only while the merged tempo is still falsy after the
AcousticBrainz step. -/
def beatportConsidered (ab : Option ABData) (bp : Option BeatportData) : Bool :=
  bp.isSome && !truthyQ (abBpmValue ab)

/-- Whether the AcousticBrainz step stores an energy value. -/
def abEnergySet (ab : Option ABData) : Bool :=
  match ab with
  | some d => truthyQ d.energy
  | none => false

/-- The denominator the code actually uses: AcousticBrainz and Last.fm count
whenever non-failing; Beatport counts only when consulted. -/
def countedSources (lf : Option LastFmData) (ab : Option ABData)
    (bp : Option BeatportData) : Nat :=
  (if ab.isSome then 1 else 0) + (if beatportConsidered ab bp then 1 else 0) +
    (if lf.isSome then 1 else 0)

/-- The sum of confidence weights the merge contributes: 0.8 when the
AcousticBrainz tempo is taken, 0.3 when the Beatport tempo is taken, 0.2 when
the Last.fm energy estimate is taken. -/
def weightSum (lf : Option LastFmData) (ab : Option ABData)
    (bp : Option BeatportData) : ℚ :=
  (if (abBpmValue ab).isSome then (8 : ℚ) / 10 else 0) +
  (if beatportConsidered ab bp &&
      (match bp with | some e => truthyQ e.bpm | none => false) then (3 : ℚ) / 10 else 0) +
  (if (match lf with | some l => truthyQ l.estimatedEnergy | none => false) &&
      !abEnergySet ab then (2 : ℚ) / 10 else 0)

/-- The claim's denominator: every source that returned any non-failing
result, zero-information successes included. -/
def nonFailingCount (lf : Option LastFmData) (ab : Option ABData)
    (bp : Option BeatportData) : Nat :=
  (if lf.isSome then 1 else 0) + (if ab.isSome then 1 else 0) +
    (if bp.isSome then 1 else 0)

/-- The overall confidence the claim predicts. -/
def claimC1Confidence (lf : Option LastFmData) (ab : Option ABData)
    (bp : Option BeatportData) : ℚ :=
  if nonFailingCount lf ab bp = 0 then 0
  else weightSum lf ab bp / (nonFailingCount lf ab bp : ℚ)

/-- An AcousticBrainz success carrying a tempo (and nothing else). -/
def abTempoOnly : ABData :=
  { bpm := some 128, key := none, mode := none, energy := none, danceability := none }

/-- A Beatport estimator success (tempo and key as the estimator produces). -/
def bpEstimate : BeatportData := { bpm := some 130, key := some 5 }
example : (combineAudioFeatures 0 0 none none (some bpEstimate)).confidence = 3 / 10 := by
  norm_num [combineAudioFeatures, bpEstimate, truthyQ, truthyNat]
example : (combineAudioFeatures 0 0 none (some abTempoOnly) (some bpEstimate)).confidence
    = 8 / 10 := by
  norm_num [combineAudioFeatures, abTempoOnly, bpEstimate, truthyQ, truthyNat, jsRound]
example : claimC1Confidence none (some abTempoOnly) (some bpEstimate) = 4 / 10 := by
  norm_num [claimC1Confidence, nonFailingCount, weightSum, abBpmValue, beatportConsidered,
    abEnergySet, abTempoOnly, bpEstimate, truthyQ, truthyNat, jsRound]

/-! ## Batch orchestrator (`src/alternative-audio-sources.js`, lines 358–391) -/

/-- The settled fate of one track inside the batch loop: either
`getAlternativeAudioFeatures` threw (an unexpected per-track internal error,
caught by the loop's `catch`), or it resolved with the three adapters'
settled results (plus the random oracles drawn for the key/mode fallbacks).
The track itself is identified by a number. -/
inductive TrackOutcome where
  | err
  | ok (track : Nat) (rndKey rndMode : Nat) (lastfm : Option LastFmData)
      (acousticbrainz : Option ABData) (beatport : Option BeatportData)
deriving DecidableEq

/-- `Object.keys(analysis.sources).filter(key => !analysis.sources[key].error)`:
the names of the adapters that returned a non-failing result, in the object's
insertion order (lastfm, acousticbrainz, beatport). -/
def sourceNames (lf : Option LastFmData) (ab : Option ABData)
    (bp : Option BeatportData) : List String :=
  (if lf.isSome then ["lastfm"] else []) ++
  (if ab.isSome then ["acousticbrainz"] else []) ++
  (if bp.isSome then ["beatport"] else [])

/-- One element of the batch result: `{ track, ...analysis.combined, sources }`.
The `track` field is optional only so that `processAlternativeAnalysis`'s
`!track` guard can be expressed on arbitrary inputs. -/
structure AnalysisEntry where
  track : Option Nat
  bpm : Option ℚ
  key : Option Nat
  mode : Option Nat
  energy : Option ℚ
  danceability : Option ℚ
  confidence : ℚ
  sources : List String
deriving DecidableEq

/-- The entry pushed for a track that passes the confidence threshold. -/
def mkAnalysisEntry (t rk rm : Nat) (lf : Option LastFmData) (ab : Option ABData)
    (bp : Option BeatportData) : AnalysisEntry :=
  let c := combineAudioFeatures rk rm lf ab bp
  { track := some t, bpm := c.bpm, key := c.key, mode := c.mode, energy := c.energy,
    danceability := c.danceability, confidence := c.confidence,
    sources := sourceNames lf ab bp }

/-- One iteration of the batch loop: an internal error is caught and skipped;
otherwise the entry is pushed only if `analysis.combined.confidence > 0.2`. -/
def batchStep (results : List AnalysisEntry) (o : TrackOutcome) : List AnalysisEntry :=
  match o with
  | .err => results
  | .ok t rk rm lf ab bp =>
    if (combineAudioFeatures rk rm lf ab bp).confidence > 2 / 10 then
      results ++ [mkAnalysisEntry t rk rm lf ab bp]
    else results

/-- `batchAnalyzeAlternativeSources(tracks, ...)`: the sequential loop over the
tracks' settled outcomes, accumulating `results`. -/
def batchAnalyzeAlternativeSources (outcomes : List TrackOutcome) : List AnalysisEntry :=
  outcomes.foldl batchStep []

/-- Whether the batch loop includes an outcome's track in the results. -/
def includesOutcome : TrackOutcome → Bool
  | .err => false
  | .ok _ rk rm lf ab bp => decide ((combineAudioFeatures rk rm lf ab bp).confidence > 2 / 10)

/-- A track whose three adapter calls all failed (all settled to `{error}`). -/
def allAdaptersFail : TrackOutcome → Bool
  | .err => false
  | .ok _ _ _ lf ab bp => lf.isNone && ab.isNone && bp.isNone

/-! ## Per-track processing (`src/unnamed/part_000`, lines 164–203) -/

/-- One analyzed track as pushed by `processAlternativeAnalysis` (the
"ReconciledFeature" of the spec). -/
structure Feature where
  track : Nat
  bpm : ℚ
  key : Nat
  mode : Option Nat
  camelotKey : String
  keyName : String
  energy : ℚ
  danceability : ℚ
  confidence : ℚ
  sources : List String
  harmonicKeys : List String
deriving DecidableEq

/-- The body of the `forEach` in `processAlternativeAnalysis`: skip when the
result has no track, skip when `result.key` is `null`/`undefined`, otherwise
push the feature record with its `|| default` fallbacks. -/
def processOne (result : AnalysisEntry) : Option Feature :=
  match result.track with
  | none => none
  | some track =>
    match result.key with
    | none => none
    | some key =>
      let camelotKey := getCamelotKey key result.mode
      let keyName := (KEY_NAMES.lookup key).getD ("Unknown")
      let modeName := if result.mode = some 1 then "Major" else "Minor"
      some
        { track := track,
          bpm := if truthyQ result.bpm then result.bpm.getD 0 else 120,
          key := key,
          mode := result.mode,
          camelotKey := camelotKey,
          keyName := keyName ++ " " ++ modeName,
          energy := if truthyQ result.energy then result.energy.getD 0 else 1 / 2,
          danceability := if truthyQ result.danceability then result.danceability.getD 0 else 1 / 2,
          -- `result.confidence || 0` is the identity on an exact number
          confidence := result.confidence,
          sources := result.sources,
          harmonicKeys := getHarmonicCompatibility camelotKey }

/-- `processAlternativeAnalysis(analysisResults)`: push the processed feature
of every result that survives the two guards, in order. -/
def processAlternativeAnalysis (analysisResults : List AnalysisEntry) : List Feature :=
  analysisResults.filterMap processOne

/-! ## Harmonic grouper (`src/unnamed/part_000`, lines 205–246) -/

/-- Stable insertion of a feature into a list sorted ascending by `bpm`
(the semantics of `tracks.sort((a, b) => a.bpm - b.bpm)`). -/
def insertByBpm (f : Feature) : List Feature → List Feature
  | [] => [f]
  | g :: rest => if f.bpm ≤ g.bpm then f :: g :: rest else g :: insertByBpm f rest

/-- Stable ascending sort by `bpm`. -/
def sortByBpm : List Feature → List Feature
  | [] => []
  | f :: rest => insertByBpm f (sortByBpm rest)

/-- The three BPM bands of `bpmRanges`, in the object's insertion order. -/
def bandsOf (sorted : List Feature) : List (String × List Feature) :=
  [("slow", sorted.filter (fun t => decide (t.bpm < 100))),
   ("medium", sorted.filter (fun t => decide (100 ≤ t.bpm ∧ t.bpm < 130))),
   ("fast", sorted.filter (fun t => decide (130 ≤ t.bpm)))]

/-- A playlist specification as built by `createDJPlaylists`. -/
structure PlaylistSpec where
  name : String
  description : String
  tracks : List Feature
  camelotKey : String
  bpmRange : String
deriving DecidableEq

/-- The playlist object built for one retained band. -/
def mkPlaylist (camelotKey : String) (speed : String) (speedTracks : List Feature) : PlaylistSpec :=
  { name := "🎛️ " ++ camelotKey ++ " " ++ speed.toUpper ++ " (" ++
      ((speedTracks.head?.map Feature.keyName).getD ("")) ++ ")",
    description := "DJ Mix Ready • Key: " ++ camelotKey ++ " (" ++
      ((speedTracks.head?.map Feature.keyName).getD ("")) ++ ") • BPM: " ++
      toString ((speedTracks.head?.map Feature.bpm).getD 0) ++ "-" ++
      toString (((speedTracks.getLast?).map Feature.bpm).getD 0) ++ " • " ++
      toString speedTracks.length ++ " tracks",
    tracks := sortByBpm speedTracks,
    camelotKey := camelotKey,
    bpmRange := speed }

/-- Appending a track to its Camelot-key group, keeping the object's key
insertion order (`keyGroups[track.camelotKey].push(track)`). -/
def addToGroups : List (String × List Feature) → String → Feature → List (String × List Feature)
  | [], k, f => [(k, [f])]
  | (k', fs) :: rest, k, f =>
    if k' = k then (k', fs ++ [f]) :: rest else (k', fs) :: addToGroups rest k f

/-- `keyGroups`: partition of the analyzed tracks by `camelotKey`, in key
insertion order (faithful for the non-index string keys `getCamelotKey`
produces). -/
def keyGroups (analyzedTracks : List Feature) : List (String × List Feature) :=
  analyzedTracks.foldl (fun gs t => addToGroups gs t.camelotKey t) []

/-- The inner loop over the three BPM bands: emit a playlist for every band
with at least 2 members. -/
def bandStep (camelotKey : String) (playlists : List (String × PlaylistSpec))
    (b : String × List Feature) : List (String × PlaylistSpec) :=
  if 2 ≤ b.2.length then
    playlists ++ [(camelotKey ++ "-" ++ b.1, mkPlaylist camelotKey b.1 b.2)]
  else playlists

/-- The outer loop over the key groups: only groups with at least 3 tracks and
a known Camelot key are split into bands. -/
def groupStep (playlists : List (String × PlaylistSpec)) (g : String × List Feature) :
    List (String × PlaylistSpec) :=
  if 3 ≤ g.2.length ∧ g.1 ≠ "Unknown" then
    (bandsOf (sortByBpm g.2)).foldl (bandStep g.1) playlists
  else playlists

/-- `createDJPlaylists(analyzedTracks)`: group by Camelot key, keep groups of
size ≥ 3 with a known key, split into BPM bands, keep bands of size ≥ 2. -/
def createDJPlaylists (analyzedTracks : List Feature) : List (String × PlaylistSpec) :=
  (keyGroups analyzedTracks).foldl groupStep []

/-! ## Shared facts about the batch loop and the reconciler -/

theorem batchStep_append (acc : List AnalysisEntry) (o : TrackOutcome) :
    batchStep acc o = acc ++ batchStep [] o := by
  cases o with
  | err => simp [batchStep]
  | ok t rk rm lf ab bp =>
    simp only [batchStep]
    split <;> simp

theorem foldl_batchStep_acc (outs : List TrackOutcome) :
    ∀ acc, List.foldl batchStep acc outs = acc ++ List.foldl batchStep [] outs := by
  induction outs with
  | nil => intro acc; simp
  | cons o rest ih =>
    intro acc
    rw [List.foldl_cons, List.foldl_cons, ih (batchStep acc o), ih (batchStep [] o),
      batchStep_append acc o, List.append_assoc]

theorem batch_cons (o : TrackOutcome) (outs : List TrackOutcome) :
    batchAnalyzeAlternativeSources (o :: outs) =
      batchStep [] o ++ batchAnalyzeAlternativeSources outs := by
  unfold batchAnalyzeAlternativeSources
  rw [List.foldl_cons, foldl_batchStep_acc outs (batchStep [] o), batchStep_append [] o]

theorem length_batchStep_nil (o : TrackOutcome) :
    (batchStep [] o).length = if includesOutcome o then 1 else 0 := by
  cases o with
  | err => simp [batchStep, includesOutcome]
  | ok t rk rm lf ab bp =>
    simp only [batchStep, includesOutcome]
    split
    next h => simp [h]
    next h => simp [h]

/-- Reconciling three all-failing adapter results yields confidence 0. -/
theorem combine_all_fail_confidence (rk rm : Nat) :
    (combineAudioFeatures rk rm none none none).confidence = 0 := by
  simp [combineAudioFeatures]

/-! ## Claims about the reconciler, the batch loop and per-track processing -/

/-- An analysis entry whose resolved key is `null` (and whose track is present). -/
def entryNoKey : AnalysisEntry :=
  { track := some 0, bpm := some 100, key := none, mode := some 1, energy := none,
    danceability := none, confidence := 1, sources := [] }

/-- C3 (counterexample): on an analysis result whose key is `null`, per-track
processing produces no feature record at all — in particular no record with
wheel position `"Unknown"` — because the `result.key === null` guard drops the
track before a feature is built. -/
theorem process_null_key_counterexample :
    entryNoKey.key = none ∧ entryNoKey.track.isSome = true ∧
    processAlternativeAnalysis [entryNoKey] = [] := by
  refine ⟨rfl, rfl, ?_⟩
  simp [processAlternativeAnalysis, processOne, entryNoKey]

/-- C3 (as amended): for every analysis result whose resolved key is absent,
per-track processing drops the track before a feature record is built: no
`ReconciledFeature` is produced for it and the output is that of the remaining
results.  (An `"Unknown"` wheel position can only arise from a non-null key
outside the lookup tables.) -/
theorem process_null_key_dropped (r : AnalysisEntry) (rs : List AnalysisEntry)
    (h : r.key = none) :
    processOne r = none ∧
    processAlternativeAnalysis (r :: rs) = processAlternativeAnalysis rs := by
  have h1 : processOne r = none := by
    cases htr : r.track <;> simp [processOne, htr, h]
  exact ⟨h1, by simp [processAlternativeAnalysis, h1]⟩

theorem process_null_key_dropped_witness :
    processOne entryNoKey = none ∧
    processAlternativeAnalysis [entryNoKey] = processAlternativeAnalysis [] :=
  process_null_key_dropped entryNoKey [] rfl

/-- C6: a track's entry is appended to the batch result exactly when its merged
overall confidence is strictly greater than 0.2 (an omitted track leaves the
accumulated result unchanged), and three all-failing adapter results merge to
confidence 0 — hence exclusion. -/
theorem batch_confidence_threshold :
    (∀ pre t rk rm lf ab bp,
        batchAnalyzeAlternativeSources (pre ++ [TrackOutcome.ok t rk rm lf ab bp]) =
          batchAnalyzeAlternativeSources pre ++
            (if (combineAudioFeatures rk rm lf ab bp).confidence > 2 / 10
             then [mkAnalysisEntry t rk rm lf ab bp] else [])) ∧
    (∀ rk rm, (combineAudioFeatures rk rm none none none).confidence = 0) := by
  constructor
  · intro pre t rk rm lf ab bp
    unfold batchAnalyzeAlternativeSources
    rw [List.foldl_append, List.foldl_cons, List.foldl_nil,
      batchStep_append (List.foldl batchStep [] pre) (TrackOutcome.ok t rk rm lf ab bp)]
    have hstep : batchStep [] (TrackOutcome.ok t rk rm lf ab bp) =
        if (combineAudioFeatures rk rm lf ab bp).confidence > 2 / 10
        then [mkAnalysisEntry t rk rm lf ab bp] else [] := by
      simp only [batchStep]
      split
      next h => simp
      next h => rfl
    rw [hstep]
  · exact combine_all_fail_confidence

/-- C10: defaulting of reconciled values is triggered by falsiness, not only
absence.  The merge treats a source tempo / energy / danceability of exactly 0
the same as a missing one, and per-track processing substitutes the defaults
(tempo 120, energy 0.5, danceability 0.5) for combined values of exactly 0. -/
theorem zero_values_treated_as_missing :
    (∀ (rk rm : Nat) (lf : Option LastFmData) (bp : Option BeatportData) (d : ABData),
        combineAudioFeatures rk rm lf (some { d with bpm := some 0 }) bp =
        combineAudioFeatures rk rm lf (some { d with bpm := none }) bp) ∧
    (∀ (rk rm : Nat) (lf : Option LastFmData) (bp : Option BeatportData) (d : ABData),
        combineAudioFeatures rk rm lf (some { d with energy := some 0 }) bp =
        combineAudioFeatures rk rm lf (some { d with energy := none }) bp) ∧
    (∀ (rk rm : Nat) (lf : Option LastFmData) (bp : Option BeatportData) (d : ABData),
        combineAudioFeatures rk rm lf (some { d with danceability := some 0 }) bp =
        combineAudioFeatures rk rm lf (some { d with danceability := none }) bp) ∧
    (∀ (rk rm : Nat) (lf : Option LastFmData) (ab : Option ABData) (e : BeatportData),
        combineAudioFeatures rk rm lf ab (some { e with bpm := some 0 }) =
        combineAudioFeatures rk rm lf ab (some { e with bpm := none })) ∧
    (∀ (rk rm : Nat) (ab : Option ABData) (bp : Option BeatportData) (l : LastFmData),
        combineAudioFeatures rk rm (some { l with estimatedEnergy := some 0 }) ab bp =
        combineAudioFeatures rk rm (some { l with estimatedEnergy := none }) ab bp) ∧
    (∀ (r : AnalysisEntry),
        processOne { r with bpm := some 0 } = processOne { r with bpm := none }) ∧
    (∀ (r : AnalysisEntry),
        processOne { r with energy := some 0 } = processOne { r with energy := none }) ∧
    (∀ (r : AnalysisEntry), processOne { r with danceability := some 0 } =
        processOne { r with danceability := none }) ∧
    (∀ (r : AnalysisEntry) (t k : Nat), r.track = some t → r.key = some k →
        r.bpm = some 0 → r.energy = some 0 → r.danceability = some 0 →
        (processOne r).map (fun f => (f.bpm, f.energy, f.danceability)) =
          some (120, 1 / 2, 1 / 2)) := by
  refine ⟨?_, ?_, ?_, ?_, ?_, ?_, ?_, ?_, ?_⟩
  · intro rk rm lf bp d; simp [combineAudioFeatures, truthyQ]
  · intro rk rm lf bp d; simp [combineAudioFeatures, truthyQ]
  · intro rk rm lf bp d; simp [combineAudioFeatures, truthyQ]
  · intro rk rm lf ab e; simp [combineAudioFeatures, truthyQ]
  · intro rk rm ab bp l; simp [combineAudioFeatures, truthyQ]
  · intro r; cases htr : r.track <;> cases hk : r.key <;> simp [processOne, htr, hk, truthyQ]
  · intro r; cases htr : r.track <;> cases hk : r.key <;> simp [processOne, htr, hk, truthyQ]
  · intro r; cases htr : r.track <;> cases hk : r.key <;> simp [processOne, htr, hk, truthyQ]
  · intro r t k h1 h2 h3 h4 h5
    simp [processOne, h1, h2, h3, h4, h5, truthyQ]

/-- A concrete entry whose combined tempo, energy and danceability are all 0. -/
def entryAllZero : AnalysisEntry :=
  { track := some 1, bpm := some 0, key := some 0, mode := some 1, energy := some 0,
    danceability := some 0, confidence := 1, sources := [] }

theorem zero_values_treated_as_missing_witness :
    (processOne entryAllZero).map (fun f => (f.bpm, f.energy, f.danceability)) =
      some (120, 1 / 2, 1 / 2) :=
  zero_values_treated_as_missing.2.2.2.2.2.2.2.2 entryAllZero 1 0 rfl rfl rfl rfl rfl

/-- A reconciled feature at wheel position `"8A"` with the given tempo. -/
def demoFeature (t : Nat) (bpm : ℚ) : Feature :=
  { track := t, bpm := bpm, key := 0, mode := some 0, camelotKey := "8A",
    keyName := "C Minor", energy := 1, danceability := 1, confidence := 1, sources := [],
    harmonicKeys := getHarmonicCompatibility ("8A") }

/-- Five features sharing wheel position `"8A"`, tempos 90, 95, 105, 110, 135. -/
def demoTempos : List Feature :=
  [demoFeature 1 90, demoFeature 2 95, demoFeature 3 105, demoFeature 4 110, demoFeature 5 135]

/-- C9: on 5 features sharing one wheel position with tempos
[90, 95, 105, 110, 135], the grouper emits exactly 2 playlists — the slow band
with exactly the tempo-90 and tempo-95 tracks in that order, and the medium
band with exactly the tempo-105 and tempo-110 tracks — while the
single-member fast band (tempo 135) is dropped. -/
theorem grouping_concrete_bands :
    (createDJPlaylists demoTempos).map
        (fun p => (p.1, p.2.bpmRange, p.2.tracks.map Feature.bpm)) =
      [("8A-slow", "slow", [90, 95]), ("8A-medium", "medium", [105, 110])] := by
  decide

/-- Length form of the batch loop: at most one entry is appended per track. -/
theorem batch_length_le (outs : List TrackOutcome) :
    (batchAnalyzeAlternativeSources outs).length ≤ outs.length := by
  induction outs with
  | nil => simp [batchAnalyzeAlternativeSources]
  | cons o rest ih =>
    rw [batch_cons, List.length_append, List.length_cons, length_batchStep_nil]
    split <;> omega

/-- A track whose adapters all failed is not included in the batch result. -/
theorem excluded_of_allFail (o : TrackOutcome) (h : allAdaptersFail o = true) :
    includesOutcome o = false := by
  cases o with
  | err => rfl
  | ok t rk rm lf ab bp =>
    simp only [allAdaptersFail, Bool.and_eq_true, Option.isNone_iff_eq_none] at h
    obtain ⟨⟨h1, h2⟩, h3⟩ := h
    subst h1; subst h2; subst h3
    norm_num [includesOutcome, combine_all_fail_confidence]

/-- An excluded track makes the batch result strictly shorter than the input. -/
theorem batch_lt_of_excluded (o : TrackOutcome) :
    ∀ outs : List TrackOutcome, o ∈ outs → includesOutcome o = false →
      (batchAnalyzeAlternativeSources outs).length < outs.length := by
  intro outs
  induction outs with
  | nil => intro h; simp at h
  | cons a rest ih =>
    intro ho hex
    rw [batch_cons, List.length_append, List.length_cons, length_batchStep_nil]
    rcases List.mem_cons.mp ho with h | h
    · rw [h] at hex
      rw [hex]
      have := batch_length_le rest
      simp only [if_neg Bool.false_ne_true]
      omega
    · have hlt := ih h hex
      have := batch_length_le rest
      split <;> omega

/-- C8: the batch orchestrator absorbs per-track failures (an erroring or
all-failing track contributes nothing and the loop continues — the embedding
is total, mirroring the per-track `catch`), its result has length at most the
input length, and when every third track's adapters all fail the result is
strictly shorter than the input. -/
theorem batch_skips_failures :
    (∀ outs, (batchAnalyzeAlternativeSources outs).length ≤ outs.length) ∧
    (∀ outs : List TrackOutcome, 3 ≤ outs.length →
        (∀ i (hi : i < outs.length), i % 3 = 2 → allAdaptersFail (outs.get ⟨i, hi⟩) = true) →
        (batchAnalyzeAlternativeSources outs).length < outs.length) := by
  refine ⟨batch_length_le, ?_⟩
  intro outs h3 hfail
  have h2 : 2 < outs.length := by omega
  have hmem : outs.get ⟨2, h2⟩ ∈ outs := List.get_mem outs 2 h2
  exact batch_lt_of_excluded _ outs hmem (excluded_of_allFail _ (hfail 2 h2 rfl))

/-- Three settled outcomes: two retained estimator-only tracks and one track
(the third) whose adapters all failed. -/
def demoOuts : List TrackOutcome :=
  [.ok 1 0 0 none none (some bpEstimate),
   .ok 2 0 0 none none (some bpEstimate),
   .ok 3 0 0 none none none]

theorem batch_skips_failures_witness :
    3 ≤ demoOuts.length ∧
    (batchAnalyzeAlternativeSources demoOuts).length < demoOuts.length := by
  refine ⟨by decide, batch_skips_failures.2 demoOuts (by decide) ?_⟩
  intro i hi hmod
  have hi3 : i < 3 := hi
  interval_cases i
  · simp at hmod
  · simp at hmod
  · rfl

@[simp] theorem truthyQ_none : truthyQ none = false := rfl

@[simp] theorem truthyNat_none : truthyNat none = false := rfl

theorem truthyQ_min_one_getD (o : Option ℚ) (h : truthyQ o = true) :
    truthyQ (some (min 1 (o.getD 0))) = true := by
  rcases o with _ | x
  · simp [truthyQ] at h
  · simp only [truthyQ, decide_eq_true_eq, Option.getD_some] at h ⊢
    rcases le_total x 1 with h1 | h1
    · rw [min_eq_right h1]; exact h
    · rw [min_eq_left h1]; norm_num

set_option maxHeartbeats 1000000 in
/-- C1 (as amended): the reconciler's overall confidence equals the sum of
the confidence weights contributed divided by the number of sources the merge
counted — AcousticBrainz and Last.fm whenever non-failing, but Beatport only
when it was consulted, i.e. when the merged tempo was still falsy after the
AcousticBrainz step — and 0 when that count is 0; when only the Beatport
estimator succeeds (with the estimator's nonzero tempo) the confidence is
exactly 0.3. -/
theorem confidence_characterization :
    (∀ (rk rm : Nat) (lf : Option LastFmData) (ab : Option ABData) (bp : Option BeatportData),
        (combineAudioFeatures rk rm lf ab bp).confidence =
          if countedSources lf ab bp = 0 then 0
          else weightSum lf ab bp / (countedSources lf ab bp : ℚ)) ∧
    (∀ (rk rm : Nat) (e : BeatportData), truthyQ e.bpm = true →
        (combineAudioFeatures rk rm none none (some e)).confidence = 3 / 10) := by
  constructor
  · intro rk rm lf ab bp
    rcases ab with _ | d
    · rcases bp with _ | e
      · rcases lf with _ | l
        · simp [combineAudioFeatures, countedSources, weightSum, beatportConsidered, abBpmValue]
        · cases hle : truthyQ l.estimatedEnergy <;>
            simp [combineAudioFeatures, countedSources, weightSum, beatportConsidered,
              abBpmValue, abEnergySet, hle]
      · rcases lf with _ | l
        · cases heb : truthyQ e.bpm <;>
            simp [combineAudioFeatures, countedSources, weightSum, beatportConsidered,
              abBpmValue, abEnergySet, heb]
        · cases heb : truthyQ e.bpm <;> cases hle : truthyQ l.estimatedEnergy <;>
            simp [combineAudioFeatures, countedSources, weightSum, beatportConsidered,
              abBpmValue, abEnergySet, heb, hle]
    · rcases bp with _ | e
      · rcases lf with _ | l
        · cases hdb : truthyQ d.bpm <;>
            simp [combineAudioFeatures, countedSources, weightSum, beatportConsidered,
              abBpmValue, abEnergySet, hdb]
        · cases hdb : truthyQ d.bpm <;> cases hde : truthyQ d.energy <;>
            cases hle : truthyQ l.estimatedEnergy <;>
            simp [combineAudioFeatures, countedSources, weightSum, beatportConsidered,
              abBpmValue, abEnergySet, hdb, hde, hle, truthyQ_min_one_getD]
      · rcases lf with _ | l
        · cases hdb : truthyQ d.bpm <;> cases heb : truthyQ e.bpm <;>
            simp [combineAudioFeatures, countedSources, weightSum, beatportConsidered,
              abBpmValue, abEnergySet, hdb, heb] <;> split_ifs <;> simp_all <;> norm_num
        · cases hdb : truthyQ d.bpm <;> cases hde : truthyQ d.energy <;>
            cases heb : truthyQ e.bpm <;> cases hle : truthyQ l.estimatedEnergy <;>
            simp [combineAudioFeatures, countedSources, weightSum, beatportConsidered,
              abBpmValue, abEnergySet, hdb, hde, heb, hle, truthyQ_min_one_getD] <;>
            split_ifs <;> simp_all [truthyQ_min_one_getD] <;> norm_num
  · intro rk rm e h
    simp [combineAudioFeatures, h]

/-- C1 (counterexample): when AcousticBrainz succeeds with a tempo and the
Beatport estimator also succeeds while Last.fm fails, the code returns
confidence 0.8 — the non-failing (zero-information) Beatport success is not
counted in the denominator — whereas the claimed formula (weights contributed
divided by the count of all non-failing sources, zero-information successes
included) predicts 0.8 / 2 = 0.4. -/
theorem confidence_claim_counterexample :
    (combineAudioFeatures 0 0 none (some abTempoOnly) (some bpEstimate)).confidence = 8 / 10 ∧
    nonFailingCount none (some abTempoOnly) (some bpEstimate) = 2 ∧
    claimC1Confidence none (some abTempoOnly) (some bpEstimate) = 4 / 10 ∧
    (combineAudioFeatures 0 0 none (some abTempoOnly) (some bpEstimate)).confidence ≠
      claimC1Confidence none (some abTempoOnly) (some bpEstimate) := by
  have h1 : (combineAudioFeatures 0 0 none (some abTempoOnly) (some bpEstimate)).confidence
      = 8 / 10 := by
    norm_num [combineAudioFeatures, abTempoOnly, bpEstimate, truthyQ, truthyNat, jsRound]
  have h2 : claimC1Confidence none (some abTempoOnly) (some bpEstimate) = 4 / 10 := by
    norm_num [claimC1Confidence, nonFailingCount, weightSum, abBpmValue, beatportConsidered,
      abEnergySet, abTempoOnly, bpEstimate, truthyQ, truthyNat, jsRound]
  refine ⟨h1, rfl, h2, ?_⟩
  rw [h1, h2]
  norm_num

theorem confidence_characterization_witness :
    (combineAudioFeatures 0 0 none none (some bpEstimate)).confidence = 3 / 10 :=
  confidence_characterization.2 0 0 bpEstimate rfl

/-! ## Shared facts about the grouper -/

theorem length_insertByBpm (f : Feature) (l : List Feature) :
    (insertByBpm f l).length = l.length + 1 := by
  induction l with
  | nil => rfl
  | cons g rest ih =>
    simp only [insertByBpm]
    split
    · simp
    · simp [ih]

theorem length_sortByBpm (l : List Feature) : (sortByBpm l).length = l.length := by
  induction l with
  | nil => rfl
  | cons f rest ih => simp [sortByBpm, length_insertByBpm, ih]

theorem mem_bandFold (ck : String) (bands : List (String × List Feature)) :
    ∀ (acc : List (String × PlaylistSpec)) (kp : String × PlaylistSpec),
      kp ∈ bands.foldl (bandStep ck) acc →
      kp ∈ acc ∨ ∃ b ∈ bands, 2 ≤ b.2.length ∧
        kp = (ck ++ "-" ++ b.1, mkPlaylist ck b.1 b.2) := by
  induction bands with
  | nil => intro acc kp h; exact Or.inl h
  | cons b rest ih =>
    intro acc kp h
    rw [List.foldl_cons] at h
    rcases ih _ kp h with h1 | ⟨b', hb', h2, heq⟩
    · by_cases hb : 2 ≤ b.2.length
      · unfold bandStep at h1
        rw [if_pos hb] at h1
        rcases List.mem_append.mp h1 with h2 | h2
        · exact Or.inl h2
        · right
          exact ⟨b, List.mem_cons_self b rest, hb, by simpa using h2⟩
      · unfold bandStep at h1
        rw [if_neg hb] at h1
        exact Or.inl h1
    · exact Or.inr ⟨b', List.mem_cons_of_mem b hb', h2, heq⟩

theorem mem_groupFold (gs : List (String × List Feature)) :
    ∀ (acc : List (String × PlaylistSpec)) (kp : String × PlaylistSpec),
      kp ∈ gs.foldl groupStep acc →
      kp ∈ acc ∨ ∃ g ∈ gs, (3 ≤ g.2.length ∧ g.1 ≠ "Unknown") ∧
        ∃ b ∈ bandsOf (sortByBpm g.2), 2 ≤ b.2.length ∧
          kp = (g.1 ++ "-" ++ b.1, mkPlaylist g.1 b.1 b.2) := by
  induction gs with
  | nil => intro acc kp h; exact Or.inl h
  | cons g rest ih =>
    intro acc kp h
    rw [List.foldl_cons] at h
    rcases ih _ kp h with h1 | ⟨g', hg', hcond, hb⟩
    · by_cases hc : 3 ≤ g.2.length ∧ g.1 ≠ "Unknown"
      · unfold groupStep at h1
        rw [if_pos hc] at h1
        rcases mem_bandFold g.1 (bandsOf (sortByBpm g.2)) acc kp h1 with h2 | ⟨b, hbm, h2l, heq⟩
        · exact Or.inl h2
        · exact Or.inr ⟨g, List.mem_cons_self g rest, hc, b, hbm, h2l, heq⟩
      · unfold groupStep at h1
        rw [if_neg hc] at h1
        exact Or.inl h1
    · exact Or.inr ⟨g', List.mem_cons_of_mem g hg', hcond, hb⟩

theorem addToGroups_keys_sub (k : String) (f : Feature) :
    ∀ (gs : List (String × List Feature)) (x : String),
      x ∈ (addToGroups gs k f).map Prod.fst ↔ x ∈ gs.map Prod.fst ∨ x = k := by
  intro gs
  induction gs with
  | nil => intro x; simp [addToGroups]
  | cons g rest ih =>
    intro x
    rcases g with ⟨k1, fs⟩
    by_cases hk : k1 = k
    · subst hk
      simp [addToGroups]
      tauto
    · simp [addToGroups, hk, ih x]
      tauto

theorem addToGroups_nodup (k : String) (f : Feature) :
    ∀ gs : List (String × List Feature),
      (gs.map Prod.fst).Nodup → ((addToGroups gs k f).map Prod.fst).Nodup := by
  intro gs
  induction gs with
  | nil => intro _; simp [addToGroups]
  | cons g rest ih =>
    intro h
    rcases g with ⟨k1, fs⟩
    rw [List.map_cons, List.nodup_cons] at h
    obtain ⟨hk1, hrest⟩ := h
    by_cases hk : k1 = k
    · subst hk
      have heq : addToGroups ((k1, fs) :: rest) k1 f = (k1, fs ++ [f]) :: rest := by
        simp [addToGroups]
      rw [heq, List.map_cons, List.nodup_cons]
      exact ⟨hk1, hrest⟩
    · simp only [addToGroups, if_neg hk, List.map_cons, List.nodup_cons]
      refine ⟨?_, ih hrest⟩
      intro hmem
      rcases (addToGroups_keys_sub k f rest k1).mp hmem with h1 | h1
      · exact hk1 h1
      · exact hk h1

theorem keyGroups_aux_nodup (ts : List Feature) :
    ∀ gs : List (String × List Feature), (gs.map Prod.fst).Nodup →
      ((ts.foldl (fun g t => addToGroups g t.camelotKey t) gs).map Prod.fst).Nodup := by
  induction ts with
  | nil => intro gs h; simpa using h
  | cons t rest ih =>
    intro gs h
    rw [List.foldl_cons]
    exact ih _ (addToGroups_nodup _ _ gs h)

theorem keyGroups_keys_nodup (ts : List Feature) : ((keyGroups ts).map Prod.fst).Nodup :=
  keyGroups_aux_nodup ts [] (by simp)

theorem keyGroups_key_inj (ts : List Feature) (g g1 : String × List Feature)
    (hg : g ∈ keyGroups ts) (hg1 : g1 ∈ keyGroups ts) (hk : g.1 = g1.1) : g = g1 :=
  List.inj_on_of_nodup_map (keyGroups_keys_nodup ts) hg hg1 hk

/-- C7: every emitted playlist specification has at least 2 tracks and is
emitted only for a wheel-position partition that is not `"Unknown"` and whose
total track count before the tempo-band split was at least 3; consequently a
partition with exactly 2 tracks yields no playlist at all, even if both tracks
fall in one tempo band. -/
theorem playlist_invariants :
    (∀ (ts : List Feature) (kp : String × PlaylistSpec), kp ∈ createDJPlaylists ts →
        2 ≤ kp.2.tracks.length ∧ kp.2.camelotKey ≠ "Unknown" ∧
        ∃ g, g ∈ keyGroups ts ∧ g.1 = kp.2.camelotKey ∧ 3 ≤ g.2.length) ∧
    (∀ (ts : List Feature) (g : String × List Feature), g ∈ keyGroups ts →
        g.2.length = 2 → ∀ kp, kp ∈ createDJPlaylists ts → kp.2.camelotKey ≠ g.1) := by
  have main : ∀ (ts : List Feature) (kp : String × PlaylistSpec), kp ∈ createDJPlaylists ts →
      2 ≤ kp.2.tracks.length ∧ kp.2.camelotKey ≠ "Unknown" ∧
      ∃ g, g ∈ keyGroups ts ∧ g.1 = kp.2.camelotKey ∧ 3 ≤ g.2.length := by
    intro ts kp h
    rcases mem_groupFold (keyGroups ts) [] kp h with h1 | ⟨g, hg, ⟨h3, hu⟩, b, hbm, h2, heq⟩
    · simp at h1
    · subst heq
      refine ⟨?_, ?_, g, hg, rfl, h3⟩
      · simpa [mkPlaylist, length_sortByBpm] using h2
      · simpa [mkPlaylist] using hu
  refine ⟨main, ?_⟩
  intro ts g hg h2 kp hkp hkey
  rcases (main ts kp hkp).2.2 with ⟨g1, hg1, hk1, h3⟩
  have hgg : g = g1 := keyGroups_key_inj ts g g1 hg hg1 (by rw [hk1, hkey])
  rw [hgg] at h2
  omega

/-- A reconciled feature at wheel position `"9A"` with the given tempo. -/
def demoFeature9A (t : Nat) (bpm : ℚ) : Feature :=
  { track := t, bpm := bpm, key := 7, mode := some 0, camelotKey := "9A",
    keyName := "G Minor", energy := 1, danceability := 1, confidence := 1, sources := [],
    harmonicKeys := getHarmonicCompatibility ("9A") }

/-- A 3-track `"8A"` partition next to a 2-track `"9A"` partition. -/
def demoMixed : List Feature :=
  [demoFeature 1 90, demoFeature 2 95, demoFeature 3 96,
   demoFeature9A 4 100, demoFeature9A 5 101]

/-- The one playlist the grouper emits for `demoMixed`. -/
def demoKp : String × PlaylistSpec :=
  ("8A-slow", mkPlaylist ("8A") ("slow") [demoFeature 1 90, demoFeature 2 95, demoFeature 3 96])

set_option maxRecDepth 100000 in
theorem demoMixed_playlists : createDJPlaylists demoMixed = [demoKp] := rfl

theorem playlist_invariants_witness :
    2 ≤ demoKp.2.tracks.length ∧ demoKp.2.camelotKey ≠ "Unknown" :=
  ⟨(playlist_invariants.1 demoMixed demoKp
      (by rw [demoMixed_playlists]; exact List.mem_singleton_self demoKp)).1,
   (playlist_invariants.1 demoMixed demoKp
      (by rw [demoMixed_playlists]; exact List.mem_singleton_self demoKp)).2.1⟩
